import Mathlib

set_option maxRecDepth 40000

/-!
Verification of the register model and batched read/write engine of the
`ha-kehua` repository (`src/server.py`, `src/kehua_inverter.py`,
`src/atess_inverter.py`), as a shallow embedding in Lean 4.

Modelling conventions:
* ModBus register words are natural numbers, assumed `< 2^16` where it matters
  (the transport layer delivers unsigned 16-bit words).
* Python numeric values are modelled by `PyNum`: an `int` payload is an
  integer `ℤ`, a `float` payload is an exact rational `ℚ`.  The claims
  settled here only concern values and multipliers that are exact in binary
  floating point (or are robust to representation), so the rational model is
  faithful on every input used in a theorem.
* Fallible Python code (raised exceptions) is modelled with `Except String`.
* `enums.py` and `helpers.py` of the repository are not present under `src/`;
  the definitions taken from them (`device_class_to_rounding`, `with_retries`)
  are modelled from the spec and marked as such in their doc comments.
-/

/-- The two register categories of `enums.RegisterTypes` used by `server.py`
(`HOLDING_REGISTER`, `INPUT_REGISTER`). -/
inductive RegisterTypes where
  | HOLDING_REGISTER
  | INPUT_REGISTER
deriving DecidableEq, Repr

/-- The data-type tags of `enums.DataType` that the decoders of
`kehua_inverter.py` and `atess_inverter.py` dispatch on. -/
inductive DataType where
  | U16
  | I16
  | U32
  | I32
  | UTF8
deriving DecidableEq, Repr

/-- The members of `enums.DeviceClass` that appear in the register tables of
`kehua_inverter.py`. -/
inductive DeviceClass where
  | ENUM
  | VOLTAGE
  | CURRENT
  | FREQUENCY
  | TEMPERATURE
  | POWER
  | APPARENT_POWER
  | REACTIVE_POWER
  | POWER_FACTOR
  | ENERGY
  | MONETARY
  | BATTERY
deriving DecidableEq, Repr

/-- A Python number: `int z` models an `int` value, `float q` models a
`float` value as an exact rational. -/
inductive PyNum where
  | int (z : ℤ)
  | float (q : ℚ)
deriving DecidableEq, Repr

/-- The numeric value of a `PyNum`, as a rational. -/
def PyNum.val : PyNum → ℚ
  | .int z => (z : ℚ)
  | .float q => q

/-- Whether a `PyNum` is a Python `float` (`isinstance(val, float)`). -/
def PyNum.isFloat : PyNum → Bool
  | .int _ => false
  | .float _ => true

/-- Python `int(x)` on a `float`: truncation toward zero. -/
def pyTrunc (q : ℚ) : ℤ := if q < 0 then ⌈q⌉ else ⌊q⌋

/-- Reinterpretation of an unsigned 16-bit word as a signed 16-bit
two's-complement integer, i.e. `struct.unpack('>h', struct.pack('>H', w))[0]`
for `w < 2^16`. -/
def toSigned16 (w : ℕ) : ℤ := if w < 2 ^ 15 then (w : ℤ) else (w : ℤ) - 2 ^ 16

/-- Reinterpretation of an unsigned 32-bit value as a signed 32-bit
two's-complement integer, i.e. `struct.unpack('>i', struct.pack('>I', c))[0]`
for `c < 2^32`. -/
def toSigned32 (c : ℕ) : ℤ := if c < 2 ^ 31 then (c : ℤ) else (c : ℤ) - 2 ^ 32

/-- `KehuaInverter._decoded` (`src/kehua_inverter.py`), restricted to the
numeric data types.  `U16` returns `registers[0]`; `I16` reinterprets the
first word as signed (`_decode_s16`); `U32` combines two words big-endian
(`_decode_u32`, `(high << 16) + low`); `I32` additionally reinterprets as
signed (`_decode_s32`).  An empty register list raises `IndexError`, a wrong
arity for the 32-bit types raises, and the `UTF8` branch delegates to the
external `pymodbus` library (not part of this repository), so it is
represented by an error marker here; no claim concerns it. -/
def kehuaDecoded (registers : List ℕ) (dtype : DataType) : Except String ℤ :=
  match dtype with
  | .U16 =>
    match registers with
    | [] => .error "IndexError"
    | w :: _ => .ok (w : ℤ)
  | .I16 =>
    match registers with
    | [] => .error "IndexError"
    | w :: _ => .ok (toSigned16 w)
  | .U32 =>
    match registers with
    | [high, low] => .ok ((high * 2 ^ 16 + low : ℕ) : ℤ)
    | _ => .error "ValueError: not enough values to unpack"
  | .I32 =>
    match registers with
    | [high, low] => .ok (toSigned32 (high * 2 ^ 16 + low))
    | _ => .error "ValueError: not enough values to unpack"
  | .UTF8 => .error "UTF8 decoding delegates to the external pymodbus library"

/-- `AtessInverter._decoded._decode_s16` (`src/atess_inverter.py`): the sign
word is `0xFFFF` when `registers[0] & 0x1000` is non-zero (bit 12, as
written in the source) and `0` otherwise; sign word and data word are packed
big-endian into 32 bits and reinterpreted as a signed 32-bit integer. -/
def atessDecodeS16 (registers : List ℕ) : Except String ℤ :=
  match registers with
  | [] => .error "IndexError"
  | w :: _ =>
    let sign : ℕ := if w &&& 0x1000 ≠ 0 then 0xFFFF else 0
    .ok (toSigned32 (sign * 2 ^ 16 + w))

/-- `KehuaInverter._encoded._encode_u16` (`src/kehua_inverter.py`): values
above `2^16 - 1` and negative values raise `ValueError` (in that order of
checks); a `float` value is then truncated with `int(...)`; the result is a
single-word list. -/
def encodeU16 (value : PyNum) : Except String (List ℕ) :=
  if value.val > 65535 then .error "Cannot write value to U16 register."
  else if value.val < 0 then .error "Cannot write negative value to U16 register."
  else
    match value with
    | .int z => .ok [z.toNat]
    | .float q => .ok [(pyTrunc q).toNat]

/-- `KehuaInverter._encoded` (`src/kehua_inverter.py`): dispatches to
`_encode_u16` for `DataType.U16` and otherwise falls off the end of the
function, returning Python `None` (modelled as `Except.ok none`). -/
def kehuaEncoded (value : PyNum) (dtype : DataType) : Except String (Option (List ℕ)) :=
  match dtype with
  | .U16 =>
    match encodeU16 value with
    | .error e => .error e
    | .ok words => .ok (some words)
  | _ => .ok none

/-- A read parameter of a device profile, as the dictionaries of
`kehua_inverter.py` define them: `addr` (1-based register address), `count`
(occupied 16-bit words), `dtype`, `register_type`, `multiplier` (scale
factor), optional `unit` and optional `device_class`. -/
structure Parameter where
  addr : ℕ
  count : ℕ
  dtype : DataType
  register_type : RegisterTypes
  multiplier : ℚ
  unit : Option String
  device_class : Option DeviceClass
deriving DecidableEq, Repr

/-- Stable insertion of a named parameter into a list sorted ascending by
`addr`: the new element goes after all elements with an address `≤` its own,
so the overall sort below is stable, like Python `sorted(key=...)`. -/
def insertByAddr (x : String × Parameter) : List (String × Parameter) → List (String × Parameter)
  | [] => [x]
  | y :: ys => if y.2.addr ≤ x.2.addr then y :: insertByAddr x ys else x :: y :: ys

/-- Stable sort by ascending `addr`, modelling
`sorted(params, key=lambda x: x[1]["addr"])` in `find_register_extent`. -/
def sortByAddr (l : List (String × Parameter)) : List (String × Parameter) :=
  l.foldl (fun acc x => insertByAddr x acc) []

/-- Python `min(...)` on a list of naturals; raises `ValueError` on an empty
sequence. -/
def pyMin (l : List ℕ) : Except String ℕ :=
  match l with
  | [] => .error "min() arg is an empty sequence"
  | x :: xs => .ok (xs.foldl Nat.min x)

/-- Python `max(...)` on a list of naturals; raises `ValueError` on an empty
sequence. -/
def pyMax (l : List ℕ) : Except String ℕ :=
  match l with
  | [] => .error "max() arg is an empty sequence"
  | x :: xs => .ok (xs.foldl Nat.max x)

/-- The address list built by `Server.find_register_extent`
(`src/server.py`) for one category: the addresses of the parameters sorted
by address and, when the last (largest-address) parameter has `count != 1`,
additionally `count - 1 + addr` of that last parameter.  Only the last
parameter's word count is taken into account. -/
def extentAddrs (sorted : List (String × Parameter)) : List ℕ :=
  let addrs := sorted.map (fun kv => kv.2.addr)
  match sorted.getLast? with
  | some kv => if kv.2.count ≠ 1 then addrs ++ [kv.2.count - 1 + kv.2.addr] else addrs
  | none => addrs

/-- The `(min, max)` pair `Server.find_register_extent` computes for one
category from its sorted parameter list. -/
def extentOf (l : List (String × Parameter)) : Except String (ℕ × ℕ) :=
  let addrs := extentAddrs (sortByAddr l)
  match pyMin addrs with
  | .error e => .error e
  | .ok lo =>
    match pyMax addrs with
    | .error e => .error e
    | .ok hi => .ok (lo, hi)

/-- `Server.find_register_extent` (`src/server.py`): splits the parameters
into holding and input categories, sorts each by address, and computes
`(min(addrs), max(addrs))` per category, where the address list of a
category is `extentAddrs` of its sorted parameters.  The holding extent is
computed first; `min`/`max` of an empty category raises `ValueError`. -/
def find_register_extent (params : List (String × Parameter)) :
    Except String ((ℕ × ℕ) × (ℕ × ℕ)) :=
  let holding_params := params.filter
    (fun kv => decide (kv.2.register_type = RegisterTypes.HOLDING_REGISTER))
  let input_params := params.filter
    (fun kv => decide (kv.2.register_type = RegisterTypes.INPUT_REGISTER))
  match extentOf holding_params with
  | .error e => .error e
  | .ok hext =>
    match extentOf input_params with
    | .error e => .error e
    | .ok iext => .ok (hext, iext)

/-- Chunking helper for `Server.create_batches`: successive slices
`iterable[ndx : ndx + batch_size]`.  The fuel argument (instantiated with
the list length) only serves termination; with `1 ≤ size` it is never
exhausted before the list is. -/
def chunkAux (size : ℕ) : ℕ → List ℕ → List (List ℕ)
  | 0, _ => []
  | _ + 1, [] => []
  | fuel + 1, x :: xs => (x :: xs).take size :: chunkAux size fuel ((x :: xs).drop size)

/-- The inner `batch` generator of `Server.create_batches`
(`src/server.py`): yields `iterable[ndx : ndx + batch_size]` for
`ndx = 0, batch_size, 2 * batch_size, ...`. -/
def batchChunks (iterable : List ℕ) (batch_size : ℕ) : List (List ℕ) :=
  chunkAux batch_size iterable.length iterable

/-- `Server.create_batches` (`src/server.py`) for one category: chunks
`range(extent_min, extent_max + 1)` into slices of `batch_size` addresses
(the call site uses the default `batch_size = 125`). -/
def create_batches (extent : ℕ × ℕ) (batch_size : ℕ) : List (List ℕ) :=
  batchChunks (List.range' extent.1 (extent.2 + 1 - extent.1)) batch_size

/-- C1 failing input: two holding parameters, one at address 10 occupying 5
words (addresses 10–14) and one single-word parameter at address 12, plus
one input parameter so the input category is non-empty. -/
def c1_params : List (String × Parameter) :=
  [("A", { addr := 10, count := 5, dtype := .U16, register_type := .HOLDING_REGISTER,
           multiplier := 1, unit := none, device_class := none }),
   ("B", { addr := 12, count := 1, dtype := .U16, register_type := .HOLDING_REGISTER,
           multiplier := 1, unit := none, device_class := none }),
   ("C", { addr := 1, count := 1, dtype := .U16, register_type := .INPUT_REGISTER,
           multiplier := 1, unit := none, device_class := none })]

/-- Python banker's rounding (`round(x)` ties to even) on an exact
rational. -/
def roundHalfEven (q : ℚ) : ℤ :=
  let f := ⌊q⌋
  let r := q - f
  if r < 1 / 2 then f
  else if 1 / 2 < r then f + 1
  else if Even f then f else f + 1

/-- Python `round(x, d)` on a `float` modelled as an exact rational: round
`x * 10^d` half to even and scale back. -/
def pyRound (q : ℚ) (d : ℕ) : ℚ := (roundHalfEven (q * 10 ^ d) : ℚ) / 10 ^ d

/-- Python `round(val, d)` for `d ≥ 0` as used in `server.py`: an `int`
comes back unchanged, a `float` is rounded half to even at `d` decimal
places. -/
def PyNum.round : PyNum → ℕ → PyNum
  | .int z, _ => .int z
  | .float q, d => .float (pyRound q d)

/-- Modelled from the spec: `device_class_to_rounding` is defined in
`enums.py`, which is not present under `src/`.  The spec fixes only the
lookup default ("default 2 decimal places"); the per-class entries are
unspecified, so the table is taken as a parameter `dcr` and this definition
models the call site `device_class_to_rounding.get(device_class, 2)` of
`server.py`: a parameter without a device class (key `None`) and any class
absent from the table get the default 2. -/
def device_class_to_rounding_get (dcr : DeviceClass → Option ℕ) :
    Option DeviceClass → ℕ
  | none => 2
  | some c => (dcr c).getD 2

/-- The rounding guard of `Server.read_from_state` and
`Server.read_registers` (`src/server.py`), with Python's operator
precedence: `device_class is not None and isinstance(val, int) or
isinstance(val, float)` parses as `(device_class is not None and
isinstance(val, int)) or isinstance(val, float)`.  For the numeric values
produced by decode-and-scale, `isinstance(val, int)` is exactly
`!val.isFloat`. -/
def rfsRoundCond (device_class : Option DeviceClass) (val : PyNum) : Bool :=
  (device_class.isSome && !val.isFloat) || val.isFloat

/-- The scaling step `if multiplier != 1: val *= multiplier` of the read
paths in `server.py`: a Python `int` times a `float` multiplier is a
`float`; with multiplier 1 the decoded `int` stays an `int`. -/
def applyScale (z : ℤ) (multiplier : ℚ) : PyNum :=
  if multiplier ≠ 1 then .float ((z : ℚ) * multiplier) else .int z

/-- The kilo-unit test `if unit and unit.startswith('k')` of
`Server.read_registers`: false for a missing unit and for the empty string
(both falsy in Python). -/
def kiloUnit : Option String → Bool
  | none => false
  | some u => !u.isEmpty && u.startsWith "k"

/-- The per-category state a connected `Server` holds: the two address
extents and the two flat word buffers filled by `read_batches`. -/
structure ServerState where
  holding_addr_extent : ℕ × ℕ
  input_addr_extent : ℕ × ℕ
  holding_state : List ℕ
  input_state : List ℕ
deriving DecidableEq, Repr

/-- The buffer slice
`self.holding_state[address - offset : address + count - offset]` (and the
input analogue) taken by `Server.read_from_state`, where `offset` is the
category's extent minimum.  Modelled for `offset ≤ address` (extents are
minima over the parameter addresses, so smaller addresses do not occur;
Python's negative-index wrap-around is not modelled). -/
def stateSlice (srv : ServerState) (register_type : RegisterTypes)
    (addr count : ℕ) : List ℕ :=
  match register_type with
  | .HOLDING_REGISTER =>
    (srv.holding_state.drop (addr - srv.holding_addr_extent.1)).take count
  | .INPUT_REGISTER =>
    (srv.input_state.drop (addr - srv.input_addr_extent.1)).take count

/-- `Server.read_from_state` (`src/server.py`) for one parameter: slice the
matching state buffer, decode via the server-specific `_decoded`
(`decoded`), scale, and round under the guard `rfsRoundCond` with the
class-specific precision — there is no unit test on this path.  The name
lookup preceding this (raising `ValueError` for an undefined parameter
name) is not modelled; `decoded` is the abstract `Server._decoded`. -/
def read_from_state (decoded : List ℕ → DataType → Except String ℤ)
    (dcr : DeviceClass → Option ℕ) (srv : ServerState) (param : Parameter) :
    Except String PyNum :=
  let result := stateSlice srv param.register_type param.addr param.count
  match decoded result param.dtype with
  | .error e => .error e
  | .ok z =>
    let val := applyScale z param.multiplier
    if rfsRoundCond param.device_class val then
      .ok (val.round (device_class_to_rounding_get dcr param.device_class))
    else .ok val

/-- `Server.read_registers` (`src/server.py`) for one parameter: issue a
transport read (modelled by its result `response`), raise on an error
result, decode, scale, and round under the same guard, but with precision 1
when the unit is kilo-prefixed and the class-specific precision
otherwise. -/
def read_registers (decoded : List ℕ → DataType → Except String ℤ)
    (dcr : DeviceClass → Option ℕ) (param : Parameter)
    (response : Except String (List ℕ)) : Except String PyNum :=
  match response with
  | .error _ => .error "Error reading register"
  | .ok regs =>
    match decoded regs param.dtype with
    | .error e => .error e
    | .ok z =>
      let val := applyScale z param.multiplier
      if rfsRoundCond param.device_class val then
        if kiloUnit param.unit then .ok (val.round 1)
        else .ok (val.round (device_class_to_rounding_get dcr param.device_class))
      else .ok val

/-- C9 concrete state: holding extent `(1, 1)` with the single word 13 in
the holding buffer. -/
def c9_state : ServerState := ⟨(1, 1), (1, 1), [13], []⟩

/-- C9 concrete parameter: one holding word at address 1, scale 1/4 (exact
in binary floating point), unit `kW`, no device class. -/
def c9_param : Parameter :=
  { addr := 1, count := 1, dtype := .U16, register_type := .HOLDING_REGISTER,
    multiplier := 1 / 4, unit := some "kW", device_class := none }

/-- C10 concrete parameter: like `c9_param` but without a unit. -/
def c10_param : Parameter :=
  { addr := 1, count := 1, dtype := .U16, register_type := .HOLDING_REGISTER,
    multiplier := 1 / 4, unit := none, device_class := none }

/-- A transport read request as issued by `Server.read_batches`: start
address, word count and register category (the slave id is fixed per
server and omitted). -/
structure ReadReq where
  start : ℕ
  count : ℕ
  register_type : RegisterTypes
deriving DecidableEq, Repr

/-- The borrowed transport client's `read` operation (`client.py` is
external to this core), modelled by its result: start address, word count
and category to either an error result or the list of read words. -/
def Transport := ℕ → ℕ → RegisterTypes → Except String (List ℕ)

/-- One category's loop of `Server.read_batches` (`src/server.py`): for
each batch, read `(batch[0], len(batch))`; append the words of a successful
result to the accumulated buffer; on an error result stop with the raised
exception (`ok = false`).  The trace records the requests issued; an empty
batch would raise `IndexError` at `batch[0]` before any request. -/
def runBatches (tr : Transport) (register_type : RegisterTypes) :
    List (List ℕ) → List ℕ → List ReadReq → List ℕ × List ReadReq × Bool
  | [], acc, trace => (acc, trace, true)
  | b :: rest, acc, trace =>
    match b with
    | [] => (acc, trace, false)
    | a :: _ =>
      match tr a b.length register_type with
      | .error _ => (acc, trace ++ [⟨a, b.length, register_type⟩], false)
      | .ok ws =>
        runBatches tr register_type rest (acc ++ ws) (trace ++ [⟨a, b.length, register_type⟩])

/-- The observable outcome of one `read_batches` cycle: the two state
buffers as the Python object holds them afterwards (also when an exception
was raised mid-cycle), the transport requests issued, and whether the cycle
completed without raising. -/
structure ReadCycleResult where
  holding_state : List ℕ
  input_state : List ℕ
  trace : List ReadReq
  ok : Bool
deriving DecidableEq, Repr

/-- `Server.read_batches` (`src/server.py`): resets `holding_state` and
`input_state` to `[]` at the start of the cycle, then reads the holding
batches in order, extending `holding_state` with each successful result and
raising on the first error result, then likewise the input batches into
`input_state`.  The pre-cycle buffer contents are discarded
unconditionally. -/
def read_batches (holding_batches input_batches : List (List ℕ))
    (tr : Transport) : ReadCycleResult :=
  let h := runBatches tr .HOLDING_REGISTER holding_batches [] []
  if h.2.2 then
    let i := runBatches tr .INPUT_REGISTER input_batches [] h.2.1
    ⟨h.1, i.1, i.2.1, i.2.2⟩
  else
    ⟨h.1, [], h.2.1, false⟩

/-- C2 concrete transport: the batch starting at address 1 succeeds with
the words `[11, 12]`; every other read (in particular the second holding
batch, starting at address 3) returns an error result. -/
def c2_transport : Transport :=
  fun a _ _ => if a = 1 then .ok [11, 12] else .error "ExceptionResponse"

/-- The request `Server.read_batches` issues for a (non-empty) batch. -/
def reqOf (register_type : RegisterTypes) (b : List ℕ) : ReadReq :=
  ⟨b.headD 0, b.length, register_type⟩

/-- The entity kinds of `enums.HAEntityType` used by `write_registers`. -/
inductive HAEntityType where
  | SWITCH
  | NUMBER
  | SELECT
deriving DecidableEq, Repr

/-- A writable parameter (`enums.WriteParameter`): a parameter plus its
entity kind (the numeric bounds and select options play no role in the
claims settled here). -/
structure WriteParameter extends Parameter where
  ha_entity_type : HAEntityType
deriving DecidableEq, Repr

/-- Modelled from the spec: `with_retries` is defined in `helpers.py`,
which is not present under `src/`.  Per the spec, the transport write is
"retried up to 3 attempts on transport-level failure"; the final failure
propagates as a `ModbusException` to `write_registers`, which catches it.
`attempt i` is the outcome of the i-th transport write; the result pairs
the number of attempts made with the final outcome. -/
def with_retries (attempt : ℕ → Except String Unit) : ℕ → ℕ → ℕ × Except String Unit
  | made, 0 => (made, .error "retries exhausted")
  | made, n + 1 =>
    match attempt made with
    | .ok _ => (made + 1, .ok ())
    | .error e => if n = 0 then (made + 1, .error e) else with_retries attempt (made + 1) n

/-- `Server.write_registers` (`src/server.py`) on the numeric-entity
(non-switch, non-UTF8) path: `value = float(raw)` then `value /=
multiplier` when the multiplier is not 1; encode via the server-specific
`_encoded` (`encoded`), propagating encoding errors to the caller; then
`with_retries(client.write, ...)` over 3 attempts, and a `ModbusException`
after all attempts is logged and swallowed (`return`), so the method
returns normally.  The parameter set is passed through untouched — the
method never modifies it.  The result carries the (unchanged) parameter
set and the number of write attempts made. -/
def write_registers (encoded : PyNum → DataType → Except String (Option (List ℕ)))
    (wp : WriteParameter) (value : ℚ) (attempt : ℕ → Except String Unit)
    (parameters : List (String × Parameter)) :
    Except String (List (String × Parameter) × ℕ) :=
  let v : ℚ := if wp.multiplier ≠ 1 then value / wp.multiplier else value
  match encoded (.float v) wp.dtype with
  | .error e => .error e
  | .ok _values =>
    let r := with_retries attempt 0 3
    match r.2 with
    | .ok _ => .ok (parameters, r.1)
    | .error _ => .ok (parameters, r.1)

/-- The single write parameter of `KehuaInverter.holding_parameters`
("Time Setting Hour", `src/kehua_inverter.py`): address `6023 + 1`, one
I16 word, multiplier 1, register category holding, a NUMBER entity. -/
def time_setting_hour : WriteParameter :=
  { addr := 6024, count := 1, dtype := .I16, register_type := .HOLDING_REGISTER,
    multiplier := 1, unit := some "", device_class := none, ha_entity_type := .NUMBER }

/-- C4 concrete attempt oracle: every transport write attempt fails with a
transport-level error. -/
def c4_attempt : ℕ → Except String Unit := fun _ => .error "ModbusException"

lemma chunkAux_join (size : ℕ) (hs : 1 ≤ size) :
    ∀ fuel l, l.length ≤ fuel → (chunkAux size fuel l).flatten = l := by
  intro fuel
  induction fuel with
  | zero =>
    intro l hl
    rw [List.length_eq_zero.mp (Nat.le_zero.mp hl)]
    rfl
  | succ n ih =>
    intro l hl
    match l with
    | [] => rfl
    | x :: xs =>
      have hdrop : ((x :: xs).drop size).length ≤ n := by
        rw [List.length_drop]
        omega
      simp only [chunkAux, List.flatten_cons, ih _ hdrop]
      exact List.take_append_drop size (x :: xs)

lemma chunkAux_mem (size : ℕ) (hs : 1 ≤ size) :
    ∀ fuel l, ∀ b ∈ chunkAux size fuel l, b.length ≤ size ∧ b ≠ [] := by
  intro fuel
  induction fuel with
  | zero => intro l b hb; cases hb
  | succ n ih =>
    intro l b hb
    match l with
    | [] => cases hb
    | x :: xs =>
      simp only [chunkAux, List.mem_cons] at hb
      rcases hb with hb | hb
      · subst hb
        refine ⟨List.length_take_le _ _, ?_⟩
        have : size = size - 1 + 1 := by omega
        rw [this]
        simp [List.take_succ_cons]
      · exact ih _ b hb

lemma drop_range' : ∀ (k s n : ℕ), (List.range' s n).drop k = List.range' (s + k) (n - k) := by
  intro k
  induction k with
  | zero => intro s n; simp
  | succ m ih =>
    intro s n
    match n with
    | 0 => simp
    | t + 1 =>
      rw [List.range'_succ, List.drop_succ_cons, ih]
      congr 1 <;> omega

lemma take_range' : ∀ (k s n : ℕ), (List.range' s n).take k = List.range' s (min k n) := by
  intro k
  induction k with
  | zero => intro s n; simp
  | succ m ih =>
    intro s n
    match n with
    | 0 => simp
    | t + 1 =>
      rw [List.range'_succ, List.take_succ_cons, ih]
      have : min (m + 1) (t + 1) = min m t + 1 := by omega
      rw [this, List.range'_succ]

lemma chunkAux_range'_shape (size : ℕ) (hs : 1 ≤ size) :
    ∀ fuel s n, ∀ b ∈ chunkAux size fuel (List.range' s n),
      ∃ a m, b = List.range' a m ∧ 1 ≤ m := by
  intro fuel
  induction fuel with
  | zero => intro s n b hb; cases hb
  | succ k ih =>
    intro s n b hb
    match n with
    | 0 => cases hb
    | t + 1 =>
      rw [List.range'_succ] at hb
      simp only [chunkAux, List.mem_cons] at hb
      rcases hb with hb | hb
      · subst hb
        rw [← List.range'_succ, take_range']
        exact ⟨s, min size (t + 1), rfl, by omega⟩
      · rw [← List.range'_succ, drop_range'] at hb
        exact ih _ _ b hb

/-- C1: `find_register_extent` only widens the maximum by the word count of
the last-by-address parameter, so on `c1_params` it computes the holding
extent `(10, 12)` although the parameter at address 10 occupies addresses up
to `10 + 5 - 1 = 14 > 12`.  The claimed invariant
`max ≥ address + word_count - 1` for every parameter therefore fails on the
code (the function's own docstring promises the extent of all registers to
be read). -/
theorem c1_extent_misses_multiword_parameter :
    find_register_extent c1_params = .ok ((10, 12), (1, 1)) ∧ (12 : ℕ) < 10 + 5 - 1 := by
  exact ⟨rfl, by decide⟩

/-- C3: `create_batches` with the protocol limit 125 tiles
`[lo, hi]`: the concatenation of the batches is exactly
`range(lo, hi + 1)`, every batch has width at most 125, is non-empty and is
itself a contiguous ascending address range; the extent `(1, 300)` yields
exactly the batches 1–125, 126–250 and 251–300, of widths 125, 125 and
50. -/
theorem c3_create_batches_tiles (lo hi : ℕ) (_h : lo ≤ hi) :
    (create_batches (lo, hi) 125).flatten = List.range' lo (hi + 1 - lo) ∧
    (∀ b ∈ create_batches (lo, hi) 125,
      b.length ≤ 125 ∧ b ≠ [] ∧ ∃ a m, b = List.range' a m ∧ 1 ≤ m) ∧
    create_batches (1, 300) 125 =
      [List.range' 1 125, List.range' 126 125, List.range' 251 50] ∧
    (create_batches (1, 300) 125).map List.length = [125, 125, 50] := by
  refine ⟨?_, ?_, by decide, by decide⟩
  · exact chunkAux_join 125 (by decide) _ _ (by simp [create_batches, batchChunks])
  · intro b hb
    have h1 := chunkAux_mem 125 (by decide) _ _ b hb
    have h2 := chunkAux_range'_shape 125 (by decide) _ lo (hi + 1 - lo) b hb
    exact ⟨h1.1, h1.2, h2⟩

/-- C3 witness: the tiling theorem instantiated at the extent `(1, 300)`
from the claim. -/
theorem c3_create_batches_tiles_witness :
    (create_batches (1, 300) 125).flatten = List.range' 1 (300 + 1 - 1) ∧
    (∀ b ∈ create_batches (1, 300) 125,
      b.length ≤ 125 ∧ b ≠ [] ∧ ∃ a m, b = List.range' a m ∧ 1 ≤ m) ∧
    create_batches (1, 300) 125 =
      [List.range' 1 125, List.range' 126 125, List.range' 251 50] ∧
    (create_batches (1, 300) 125).map List.length = [125, 125, 50] :=
  c3_create_batches_tiles 1 300 (by decide)

/-- C8 counterexample: on a parameter set with no parameters of a category
(here: the empty set), `find_register_extent` raises `ValueError` from
`min()` of an empty sequence; it does not yield an absent extent that
callers could use to skip the category. -/
theorem c8_empty_category_is_error :
    find_register_extent [] = .error "min() arg is an empty sequence" := rfl

/-- C8 amended: whenever either register category has no parameters,
`find_register_extent` raises (models `ValueError` from `min()`/`max()` of
an empty sequence); the code assumes at least one parameter per category
(its own TODO comment records this assumption) instead of yielding an
absent extent. -/
theorem c8_empty_category_raises (params : List (String × Parameter))
    (h : params.filter
          (fun kv => decide (kv.2.register_type = RegisterTypes.HOLDING_REGISTER)) = [] ∨
        params.filter
          (fun kv => decide (kv.2.register_type = RegisterTypes.INPUT_REGISTER)) = []) :
    ∃ e, find_register_extent params = .error e := by
  rcases h with hH | hI
  · exact ⟨"min() arg is an empty sequence", by simp [find_register_extent, hH]; rfl⟩
  · cases hh : extentOf (params.filter
        (fun kv => decide (kv.2.register_type = RegisterTypes.HOLDING_REGISTER))) with
    | error e => exact ⟨e, by simp [find_register_extent, hh]⟩
    | ok x =>
      exact ⟨"min() arg is an empty sequence", by simp [find_register_extent, hh, hI]; rfl⟩

/-- C8 witness: `c8_empty_category_raises` applied to the empty parameter
set, whose holding-category filter is empty. -/
theorem c8_empty_category_raises_witness :
    ∃ e, find_register_extent [] = .error e :=
  c8_empty_category_raises [] (Or.inl rfl)

/-- C5: the encode/decode round trip `_encoded(_decoded(words, T), T) == words`
for the Kehua codec.  The claim asserts it for T ∈ {U16, U32}; on the code it
holds for U16 (proved here in general for in-range words, and at the claimed
example `[0x0102]`), while for U32 the decode of `[0x0102, 0x0304]` yields
`16909060` but `_encoded` supports only U16 and returns `None` for U32, so
the U32 round trip fails (see the counterexample theorem). -/
theorem c5_roundtrip_u16_only :
    (∀ w : ℕ, w ≤ 65535 →
      kehuaDecoded [w] .U16 = .ok (w : ℤ) ∧
      kehuaEncoded (.int (w : ℤ)) .U16 = .ok (some [w])) ∧
    kehuaDecoded [0x0102] .U16 = .ok 258 ∧
    kehuaEncoded (.int 258) .U16 = .ok (some [258]) ∧
    kehuaDecoded [0x0102, 0x0304] .U32 = .ok 16909060 ∧
    kehuaEncoded (.int 16909060) .U32 = .ok none := by
  have h258 : kehuaEncoded (.int 258) .U16 = .ok (some [258]) := by
    have h1 : ¬ (PyNum.val (.int 258) > 65535) := by norm_num [PyNum.val]
    have h2 : ¬ (PyNum.val (.int 258) < 0) := by norm_num [PyNum.val]
    simp [kehuaEncoded, encodeU16, h1, h2]
  refine ⟨fun w hw => ⟨rfl, ?_⟩, rfl, h258, rfl, rfl⟩
  have h1 : ¬ (PyNum.val (.int (w : ℤ)) > 65535) := by
    simp only [PyNum.val, not_lt]
    exact_mod_cast hw
  have h2 : ¬ (PyNum.val (.int (w : ℤ)) < 0) := by
    simp only [PyNum.val, not_lt]
    positivity
  simp [kehuaEncoded, encodeU16, h1, h2]

/-- C5 counterexample: the claimed U32 round trip fails on the code.
`_decoded([0x0102, 0x0304], U32)` is `16909060`, but `_encoded(16909060, U32)`
returns `None` (the function only handles U16), not the original two words. -/
theorem c5_u32_roundtrip_fails :
    kehuaDecoded [0x0102, 0x0304] .U32 = .ok 16909060 ∧
    kehuaEncoded (.int 16909060) .U32 = .ok none ∧
    (Except.ok none : Except String (Option (List ℕ))) ≠ .ok (some [0x0102, 0x0304]) := by
  refine ⟨rfl, rfl, by simp⟩

/-- C5 witness: the general U16 part of `c5_roundtrip_u16_only`
instantiated at the word `0x0102 = 258`. -/
theorem c5_roundtrip_u16_only_witness :
    kehuaDecoded [258] .U16 = .ok 258 ∧
    kehuaEncoded (.int 258) .U16 = .ok (some [258]) :=
  c5_roundtrip_u16_only.1 258 (by decide)

/-- C6 counterexample: the Atess 16-bit signed decode of the single word
`0x7FFF` yields `-32769`, not `32767`: the source tests bit 12 (`0x1000`) as
the sign indicator, and `0x7FFF` has bit 12 set. -/
theorem c6_atess_s16_0x7FFF :
    atessDecodeS16 [0x7FFF] = .ok (-32769) ∧ ((-32769 : ℤ) ≠ 32767) := by
  refine ⟨rfl, by decide⟩

/-- C6 amended: the Kehua I16 decode is standard two's complement with bit 15
as the sign bit (`0xFFFF` ↦ `-1`, `0x7FFF` ↦ `32767`), while the Atess I16
decode tests bit 12 (`0x1000`) as the sign indicator, so `0xFFFF` ↦ `-1` but
`0x7FFF` ↦ `-32769`. -/
theorem c6_sign_bit_per_family :
    kehuaDecoded [0xFFFF] .I16 = .ok (-1) ∧
    kehuaDecoded [0x7FFF] .I16 = .ok 32767 ∧
    atessDecodeS16 [0xFFFF] = .ok (-1) ∧
    atessDecodeS16 [0x7FFF] = .ok (-32769) := by
  refine ⟨rfl, rfl, rfl, rfl⟩

/-- C7: U16 encoding rejects every out-of-range input with a range error
(`ValueError`), in particular `-1` and `65536`; every in-range input is
truncated toward zero (`pyTrunc`, a no-op on integers) and encoded as a
single-word list holding exactly that value. -/
theorem c7_encode_u16_range :
    (∀ v : PyNum, v.val < 0 ∨ v.val > 65535 →
      ∃ msg, kehuaEncoded v .U16 = .error msg) ∧
    kehuaEncoded (.int (-1)) .U16 = .error "Cannot write negative value to U16 register." ∧
    kehuaEncoded (.int 65536) .U16 = .error "Cannot write value to U16 register." ∧
    (∀ q : ℚ, 0 ≤ q → q ≤ 65535 →
      kehuaEncoded (.float q) .U16 = .ok (some [(pyTrunc q).toNat]) ∧
      [(pyTrunc q).toNat].length = 1 ∧ pyTrunc q = ⌊q⌋) ∧
    (∀ z : ℤ, 0 ≤ z → z ≤ 65535 →
      kehuaEncoded (.int z) .U16 = .ok (some [z.toNat]) ∧ [z.toNat].length = 1) := by
  refine ⟨?_, rfl, rfl, ?_, ?_⟩
  · rintro v (hneg | hbig)
    · by_cases hb : v.val > 65535
      · exact ⟨"Cannot write value to U16 register.",
          by simp [kehuaEncoded, encodeU16, hb]⟩
      · exact ⟨"Cannot write negative value to U16 register.",
          by simp [kehuaEncoded, encodeU16, hb, hneg]⟩
    · exact ⟨"Cannot write value to U16 register.",
        by simp [kehuaEncoded, encodeU16, hbig]⟩
  · intro q h0 h65
    have hb : ¬ (PyNum.val (.float q) > 65535) := by simpa [PyNum.val] using h65
    have hn : ¬ (PyNum.val (.float q) < 0) := by simpa [PyNum.val] using h0
    refine ⟨by simp [kehuaEncoded, encodeU16, hb, hn], rfl, ?_⟩
    simp [pyTrunc, not_lt.mpr h0]
  · intro z h0 h65
    have hb : ¬ (PyNum.val (.int z) > 65535) := by
      simp only [PyNum.val, not_lt]
      exact_mod_cast h65
    have hn : ¬ (PyNum.val (.int z) < 0) := by
      simp only [PyNum.val, not_lt]
      exact_mod_cast h0
    exact ⟨by simp [kehuaEncoded, encodeU16, hb, hn], rfl⟩

/-- C7 witness: `c7_encode_u16_range` instantiated at the concrete inputs
`-1` (rejected), `65536` (rejected), the fractional in-range value `5/2`
(truncated to `2`) and the integer in-range value `7`. -/
theorem c7_encode_u16_range_witness :
    (∃ msg, kehuaEncoded (.int (-1)) .U16 = .error msg) ∧
    (∃ msg, kehuaEncoded (.int 65536) .U16 = .error msg) ∧
    (kehuaEncoded (.float (5 / 2)) .U16 = .ok (some [(pyTrunc (5 / 2)).toNat]) ∧
      [(pyTrunc (5 / 2)).toNat].length = 1 ∧ pyTrunc (5 / 2) = ⌊(5 / 2 : ℚ)⌋) ∧
    kehuaEncoded (.int 7) .U16 = .ok (some [(7 : ℤ).toNat]) := by
  refine ⟨?_, ?_, ?_, ?_⟩
  · exact c7_encode_u16_range.1 (.int (-1)) (Or.inl (by norm_num [PyNum.val]))
  · exact c7_encode_u16_range.1 (.int 65536) (Or.inr (by norm_num [PyNum.val]))
  · exact (c7_encode_u16_range.2.2.2.1 (5 / 2) (by norm_num) (by norm_num))
  · exact (c7_encode_u16_range.2.2.2.2 7 (by norm_num) (by norm_num)).1

/-- C9 counterexample: a kilo-unit parameter without a device class, read
through `read_from_state`.  The decoded-and-scaled value is the float
`13/4 = 3.25`; the code rounds it with the 2-decimal default, returning
`3.25`, while the claimed kilo-unit rule would give
`round(3.25, 1) = 3.2 = 16/5 ≠ 13/4`: `read_from_state` applies no
kilo-unit precision. -/
theorem c9_read_from_state_ignores_kilo_units :
    read_from_state kehuaDecoded (fun _ => none) c9_state c9_param =
      .ok (.float (13 / 4)) ∧
    pyRound (13 / 4) 1 = 16 / 5 ∧ (13 / 4 : ℚ) ≠ 16 / 5 := by
  refine ⟨?_, ?_, by norm_num⟩
  · have h1 : kehuaDecoded (stateSlice c9_state c9_param.register_type c9_param.addr
        c9_param.count) c9_param.dtype = .ok 13 := rfl
    simp only [read_from_state]
    rw [h1]
    norm_num [c9_param, applyScale, rfsRoundCond, PyNum.isFloat, PyNum.round,
      device_class_to_rounding_get, pyRound, roundHalfEven]
  · simp only [pyRound, roundHalfEven]
    norm_num [Int.even_iff]

/-- C9 amended: after decode and scaling (a float whenever the multiplier
is not 1), `read_registers` rounds to 1 decimal place when the unit is
kilo-prefixed and to the class-specific precision (default 2) otherwise,
while `read_from_state` always rounds to the class-specific precision
(default 2) — the unit is never consulted on that path. -/
theorem c9_kilo_rule_only_in_read_registers
    (decoded : List ℕ → DataType → Except String ℤ)
    (dcr : DeviceClass → Option ℕ) (srv : ServerState) (param : Parameter)
    (regs : List ℕ) (z : ℤ)
    (hm : param.multiplier ≠ 1)
    (h1 : decoded (stateSlice srv param.register_type param.addr param.count)
            param.dtype = .ok z)
    (h2 : decoded regs param.dtype = .ok z) :
    read_from_state decoded dcr srv param =
      .ok (.float (pyRound ((z : ℚ) * param.multiplier)
        (device_class_to_rounding_get dcr param.device_class))) ∧
    read_registers decoded dcr param (.ok regs) =
      .ok (.float (pyRound ((z : ℚ) * param.multiplier)
        (if kiloUnit param.unit then 1
         else device_class_to_rounding_get dcr param.device_class))) := by
  constructor
  · simp [read_from_state, h1, applyScale, hm, rfsRoundCond, PyNum.isFloat, PyNum.round]
  · by_cases hk : kiloUnit param.unit <;>
      simp [read_registers, h2, applyScale, hm, rfsRoundCond, PyNum.isFloat, PyNum.round, hk]

/-- C9 witness: `c9_kilo_rule_only_in_read_registers` at the concrete
kilo-unit parameter `c9_param` with the word 13 in the buffer and in the
transport response. -/
theorem c9_kilo_rule_only_in_read_registers_witness :
    read_from_state kehuaDecoded (fun _ => none) c9_state c9_param =
      .ok (.float (pyRound ((13 : ℚ) * c9_param.multiplier)
        (device_class_to_rounding_get (fun _ => none) c9_param.device_class))) ∧
    read_registers kehuaDecoded (fun _ => none) c9_param (.ok [13]) =
      .ok (.float (pyRound ((13 : ℚ) * c9_param.multiplier)
        (if kiloUnit c9_param.unit then 1
         else device_class_to_rounding_get (fun _ => none) c9_param.device_class))) :=
  c9_kilo_rule_only_in_read_registers kehuaDecoded (fun _ => none) c9_state c9_param
    [13] 13 (by norm_num [c9_param]) rfl rfl

/-- C10: on `read_from_state`, a float-valued result (multiplier not 1) is
always rounded, also for a parameter without a device class, where the
precision falls back to the 2-decimal default; the rounding guard holds for
every float value, while for an `int` value it holds exactly when the
parameter defines a device class (and rounding an `int` is the
identity). -/
theorem c10_read_from_state_rounding_guard
    (decoded : List ℕ → DataType → Except String ℤ)
    (dcr : DeviceClass → Option ℕ) (srv : ServerState) (param : Parameter)
    (z : ℤ)
    (h1 : decoded (stateSlice srv param.register_type param.addr param.count)
            param.dtype = .ok z)
    (hm : param.multiplier ≠ 1)
    (hdc : param.device_class = none) :
    read_from_state decoded dcr srv param =
      .ok (.float (pyRound ((z : ℚ) * param.multiplier) 2)) ∧
    (∀ (dc : Option DeviceClass) (q : ℚ), rfsRoundCond dc (.float q) = true) ∧
    (∀ (dc : Option DeviceClass) (w : ℤ),
      rfsRoundCond dc (.int w) = true ↔ dc.isSome = true) ∧
    (∀ (w : ℤ) (d : ℕ), PyNum.round (.int w) d = .int w) := by
  refine ⟨?_, ?_, ?_, fun w d => rfl⟩
  · simp [read_from_state, h1, applyScale, hm, hdc, rfsRoundCond, PyNum.isFloat,
      PyNum.round, device_class_to_rounding_get]
  · intro dc q; simp [rfsRoundCond, PyNum.isFloat]
  · intro dc w; simp [rfsRoundCond, PyNum.isFloat]

/-- C10 witness: `c10_read_from_state_rounding_guard` at the concrete
class-less parameter `c10_param` with the word 13 in the buffer. -/
theorem c10_read_from_state_rounding_guard_witness :
    read_from_state kehuaDecoded (fun _ => none) c9_state c10_param =
      .ok (.float (pyRound ((13 : ℚ) * c10_param.multiplier) 2)) ∧
    (∀ (dc : Option DeviceClass) (q : ℚ), rfsRoundCond dc (.float q) = true) ∧
    (∀ (dc : Option DeviceClass) (w : ℤ),
      rfsRoundCond dc (.int w) = true ↔ dc.isSome = true) ∧
    (∀ (w : ℤ) (d : ℕ), PyNum.round (.int w) d = .int w) :=
  c10_read_from_state_rounding_guard kehuaDecoded (fun _ => none) c9_state c10_param
    13 rfl (by norm_num [c10_param]) rfl

lemma runBatches_fail (tr : Transport) (rt : RegisterTypes) (w : List ℕ → List ℕ)
    (bad : List ℕ) (a : ℕ) (t : List ℕ) (e : String)
    (hbad : bad = a :: t) (herr : tr a bad.length rt = .error e) :
    ∀ (pre : List (List ℕ)) (rest : List (List ℕ)) (acc : List ℕ) (trace : List ReadReq),
      (∀ b ∈ pre, ∃ hd tl, b = hd :: tl ∧ tr hd b.length rt = .ok (w b)) →
      runBatches tr rt (pre ++ bad :: rest) acc trace =
        (acc ++ (pre.map w).flatten, trace ++ pre.map (reqOf rt) ++ [reqOf rt bad], false) := by
  intro pre
  induction pre with
  | nil =>
    intro rest acc trace _
    subst hbad
    have herr2 : tr a (t.length + 1) rt = Except.error e := by simpa using herr
    simp [runBatches, herr2, reqOf]
  | cons x pre' ih =>
    intro rest acc trace hpre
    obtain ⟨hd, tl, hx, hok⟩ := hpre x (by simp)
    have hpre' : ∀ b ∈ pre', ∃ hd2 tl2, b = hd2 :: tl2 ∧ tr hd2 b.length rt = .ok (w b) :=
      fun b hb => hpre b (by simp [hb])
    subst hx
    have hih := ih rest (acc ++ w (hd :: tl)) (trace ++ [⟨hd, (hd :: tl).length, rt⟩]) hpre'
    simp only [List.cons_append, runBatches, hok, List.append_eq, hih]
    simp [reqOf, List.append_assoc]

/-- C2 counterexample: with holding batches `[1, 2]` and `[3, 4]` (and one
input batch) under `c2_transport`, the first batch succeeds with `[11, 12]`
and the second returns an error, so the cycle raises — but the server's
`holding_state` afterwards is `[11, 12]`, the partially committed words of
this cycle, not a pre-cycle content such as `[5, 6]` (the buffers were
reset at cycle start and the first batch was committed before the
failure). -/
theorem c2_failed_cycle_commits_partial_state :
    read_batches [[1, 2], [3, 4]] [[7]] c2_transport =
      ⟨[11, 12], [],
        [⟨1, 2, .HOLDING_REGISTER⟩, ⟨3, 2, .HOLDING_REGISTER⟩], false⟩ ∧
    ([11, 12] : List ℕ) ≠ [5, 6] := by
  exact ⟨rfl, by decide⟩

/-- C2 amended: when a holding batch returns an error result,
`read_batches` aborts immediately — the trace contains exactly the requests
for the preceding (successful) batches and the failing one, no later
holding batch and no input batch is attempted, and the cycle signals a
failure; but the state buffers are not left at their pre-cycle contents:
they were reset at cycle start, `holding_state` ends as the concatenation
of the words of the successfully read batches of this cycle and
`input_state` ends empty. -/
theorem c2_abort_without_restore (tr : Transport) (w : List ℕ → List ℕ)
    (pre : List (List ℕ)) (bad : List ℕ) (rest input_batches : List (List ℕ))
    (a : ℕ) (t : List ℕ) (e : String)
    (hpre : ∀ b ∈ pre, ∃ hd tl, b = hd :: tl ∧ tr hd b.length .HOLDING_REGISTER = .ok (w b))
    (hbad : bad = a :: t)
    (herr : tr a bad.length .HOLDING_REGISTER = .error e) :
    read_batches (pre ++ bad :: rest) input_batches tr =
      ⟨(pre.map w).flatten, [],
        pre.map (reqOf .HOLDING_REGISTER) ++ [reqOf .HOLDING_REGISTER bad], false⟩ := by
  have h := runBatches_fail tr .HOLDING_REGISTER w bad a t e hbad herr pre rest [] [] hpre
  simp [read_batches, h]

/-- C2 witness: `c2_abort_without_restore` at the concrete two-batch cycle
of the counterexample (first holding batch succeeds, second fails, one
input batch pending). -/
theorem c2_abort_without_restore_witness :
    read_batches [[1, 2], [3, 4]] [[7]] c2_transport =
      ⟨([[1, 2]].map (fun _ => [11, 12])).flatten, [],
        [[1, 2]].map (reqOf .HOLDING_REGISTER) ++ [reqOf .HOLDING_REGISTER [3, 4]],
        false⟩ :=
  c2_abort_without_restore c2_transport (fun _ => [11, 12]) [[1, 2]] [3, 4] [] [[7]]
    3 [4] "ExceptionResponse"
    (fun b hb => by
      rw [List.mem_singleton.mp hb]
      exact ⟨1, [2], rfl, rfl⟩)
    rfl rfl

/-- C4: when every one of the 3 transport write attempts fails with a
transport-level error, `write_registers` still returns normally (the final
`ModbusException` from `with_retries` is caught, logged and swallowed),
exactly 3 attempts are made, and the parameter set is returned unchanged.
Encoding must succeed for the write to be attempted at all (encoding
errors propagate, but they precede the transport). -/
theorem c4_write_failure_swallowed
    (encoded : PyNum → DataType → Except String (Option (List ℕ)))
    (wp : WriteParameter) (value : ℚ) (attempt : ℕ → Except String Unit)
    (parameters : List (String × Parameter)) (words : Option (List ℕ))
    (henc : encoded (.float (if wp.multiplier ≠ 1 then value / wp.multiplier else value))
              wp.dtype = .ok words)
    (hfail : ∀ i, i < 3 → ∃ e, attempt i = .error e) :
    write_registers encoded wp value attempt parameters = .ok (parameters, 3) := by
  obtain ⟨e0, h0⟩ := hfail 0 (by omega)
  obtain ⟨e1, h1⟩ := hfail 1 (by omega)
  obtain ⟨e2, h2⟩ := hfail 2 (by omega)
  simp only [write_registers]
  rw [henc]
  simp [with_retries, h0, h1, h2]

/-- C4 witness: `c4_write_failure_swallowed` for the Kehua device writing
its "Time Setting Hour" parameter with value 5 while every transport write
attempt fails. -/
theorem c4_write_failure_swallowed_witness :
    write_registers kehuaEncoded time_setting_hour 5 c4_attempt
      [("Time Setting Hour", time_setting_hour.toParameter)] =
      .ok ([("Time Setting Hour", time_setting_hour.toParameter)], 3) :=
  c4_write_failure_swallowed kehuaEncoded time_setting_hour 5 c4_attempt
    [("Time Setting Hour", time_setting_hour.toParameter)] none rfl
    (fun _ _ => ⟨"ModbusException", rfl⟩)
